import Mathlib

/-
  Verification of the widget-wrapper layer in src/ginga/gtkw/Widgets.py.

  Shallow embedding conventions:
  * wrapped widgets are identified by natural-number ids;
  * gtk model containers (ListStore rows, TreeStore nodes, child lists)
    are embedded as Lean lists, in insertion order;
  * Python exceptions are embedded as `Except WErr`;
  * purely native/rendering calls (pack_start, show_all, scrolling, cell
    renderers) have no effect on the bookkeeping state that the spec
    talks about and are therefore not part of the embedding.
-/

/-- Error conditions raised by the module.  `notAChild` embeds the
`KeyError("Widget is not a child of this container")` raised by
`ContainerBase.remove` (Widgets.py:755), which the spec's taxonomy calls
`NotAChildError`.  `keyError` embeds a Python `KeyError` from a missing
mapping key, `typeError` a `TypeError` from applying a mapping operation
to a non-mapping, and `valueError` the `ValueError` raised by
`make_widget` (Widgets.py:1336). -/
inductive WErr where
  | notAChild
  | keyError
  | typeError
  | valueError
deriving DecidableEq

/- ===================== Container model (C1, C6) ===================== -/

/-- `ContainerBase.add_ref` (Widgets.py:746-748): appends the child to
`self.children`.  Every container subclass's `add_widget` calls this
exactly once, so the child-list effect of `add_widget` is an append for
every container type. -/
def addRef (l : List Nat) (w : Nat) : List Nat := l ++ [w]

/-- `ContainerBase.remove` (Widgets.py:753-758): raises
`KeyError("Widget is not a child of this container")` when `w` is not in
`self.children`, otherwise `self.children.remove(w)` deletes the first
occurrence (then detaches the native widget, which has no effect on the
child list). -/
def removeStep (l : List Nat) (w : Nat) : Except WErr (List Nat) :=
  if w ∈ l then .ok (l.erase w) else .error .notAChild

/-- The child list after a call to `remove`: the raise at
Widgets.py:755 happens before `self.children.remove(w)`, so on failure
the list is unchanged. -/
def removeState (l : List Nat) (w : Nat) : List Nat :=
  match removeStep l w with
  | .ok l2 => l2
  | .error _ => l

/-- The loop body of `ContainerBase.remove_all` (Widgets.py:760-762):
`for w in list(self.children): self.remove(w)` iterates over a snapshot
copy of the child list, removing each element in order; an exception
would abort the loop. -/
def removeLoop : List Nat → List Nat → Except WErr (List Nat)
  | [], cur => .ok cur
  | w :: ws, cur =>
    match removeStep cur w with
    | .error e => .error e
    | .ok cur2 => removeLoop ws cur2

/-- `ContainerBase.remove_all` (Widgets.py:760-762): runs the removal
loop over a snapshot of the current children. -/
def removeAllSrc (l : List Nat) : Except WErr (List Nat) := removeLoop l l

/-- An operation on a container's child list, per claim C1:
`add_widget`, `remove`, or `remove_all`. -/
inductive COp where
  | add (w : Nat)
  | rem (w : Nat)
  | remAll
deriving DecidableEq

/-- One container operation as implemented by the source. -/
def contStep (l : List Nat) : COp → Except WErr (List Nat)
  | .add w => .ok (addRef l w)
  | .rem w => removeStep l w
  | .remAll => removeAllSrc l

/-- A sequence of container operations as implemented by the source;
an exception aborts the remainder of the sequence. -/
def contRun : List Nat → List COp → Except WErr (List Nat)
  | l, [] => .ok l
  | l, op :: ops =>
    match contStep l op with
    | .error e => .error e
    | .ok l2 => contRun l2 ops

/-- Spec-side simulation for the refinement claim C1, following the
spec's words: add appends the child at the end, remove deletes the first
matching child (failing when it is absent), and `remove_all` leaves the
collection empty. -/
def specStep (l : List Nat) : COp → Except WErr (List Nat)
  | .add w => .ok (l ++ [w])
  | .rem w => if w ∈ l then .ok (l.erase w) else .error .notAChild
  | .remAll => .ok []

/-- The spec-side simulation of a sequence of container operations. -/
def specRun : List Nat → List COp → Except WErr (List Nat)
  | l, [] => .ok l
  | l, op :: ops =>
    match specStep l op with
    | .error e => .error e
    | .ok l2 => specRun l2 ops

/- ===================== Splitter pane chain (C2) ===================== -/

/-- The content of one slot of a gtk Paned: either a wrapped child
widget or another (nested) pane, identified by its index in the
splitter's `panes` list. -/
inductive SContent where
  | widget (w : Nat)
  | pane (idx : Nat)
deriving DecidableEq

/-- A gtk HPaned/VPaned: two slots, filled by `pack1`/`pack2`. -/
structure SPane where
  slot1 : Option SContent
  slot2 : Option SContent
deriving DecidableEq

/-- The bookkeeping state of a `Splitter` (Widgets.py:925-931): the
inherited child list, the root pane (`self.widget`), and the list of
nested panes (`self.panes`, in creation order). -/
structure SplitterState where
  children : List Nat
  root : SPane
  panes : List SPane
deriving DecidableEq

/-- `Splitter.__init__` (Widgets.py:926-931): empty child list, an empty
root pane and no nested panes. -/
def splitterInit : SplitterState := ⟨[], ⟨none, none⟩, []⟩

/-- `pack2` on a pane: fills the second slot. -/
def packSlot2 (p : SPane) (c : SContent) : SPane := { p with slot2 := some c }

/-- `last.pack2(w)` applied to the last element of `self.panes`. -/
def packSlot2Last (ps : List SPane) (c : SContent) : List SPane :=
  match ps.getLast? with
  | none => ps
  | some p => ps.dropLast ++ [packSlot2 p c]

/-- `Splitter.add_widget` (Widgets.py:940-958): appends the child to the
child list; the first child is packed into the root pane's first slot;
every later child goes into the first slot of one freshly created pane,
which is packed into the second slot of the previously last pane (the
root pane when `self.panes` is still empty). -/
def splitterAdd (st : SplitterState) (child : Nat) : SplitterState :=
  let children := st.children ++ [child]
  if children.length = 1 then
    { st with
        children := children
        root := { st.root with slot1 := some (.widget child) } }
  else
    let idx := st.panes.length
    let newPane : SPane := ⟨some (.widget child), none⟩
    if st.panes.length = 0 then
      { children := children
        root := packSlot2 st.root (.pane idx)
        panes := [newPane] }
    else
      { children := children
        root := st.root
        panes := packSlot2Last st.panes (.pane idx) ++ [newPane] }

/-- The state of a fresh `Splitter` after adding children 1, 2, 3
(claim C2's scenario). -/
def splitter3 : SplitterState :=
  splitterAdd (splitterAdd (splitterAdd splitterInit 1) 2) 3

/- ===================== Orientation tags (C7) ===================== -/

/-- The two native widget orientations. -/
inductive Orient where
  | horizontal
  | vertical
deriving DecidableEq

/-- `Box.__init__` (Widgets.py:776-782): `gtk.HBox()` when the
orientation tag equals `'horizontal'`, else `gtk.VBox()`; no other check
and no exception. -/
def boxOrient (s : String) : Orient :=
  if s = "horizontal" then .horizontal else .vertical

/-- `Slider.__init__` (Widgets.py:379-389): `HScale` when the tag equals
`'horizontal'`, else `VScale`; no other check and no exception. -/
def sliderOrient (s : String) : Orient :=
  if s = "horizontal" then .horizontal else .vertical

/-- `ScrollBar.__init__` (Widgets.py:420-427): `gtk.HScrollbar()` when
the tag equals `'horizontal'`, else `gtk.VScrollbar()`. -/
def scrollBarOrient (s : String) : Orient :=
  if s = "horizontal" then .horizontal else .vertical

/-- `Toolbar.__init__` (Widgets.py:986-995): horizontal orientation when
the tag equals `'horizontal'`, else vertical. -/
def toolbarOrient (s : String) : Orient :=
  if s = "horizontal" then .horizontal else .vertical

/-- `Splitter._get_pane` (Widgets.py:933-938): `gtk.HPaned()` when the
stored orientation tag equals `'horizontal'`, else `gtk.VPaned()`. -/
def splitterOrient (s : String) : Orient :=
  if s = "horizontal" then .horizontal else .vertical

/- ===================== ComboBox model (C4) ===================== -/

/-- `gtk.ListStore.insert(position, row)` semantics: inserting at a
position at or beyond the end appends. -/
def listInsertAt (l : List String) (pos : Nat) (x : String) : List String :=
  l.take pos ++ x :: l.drop pos

/-- The scan loop of `ComboBox.insert_alpha` (Widgets.py:300-306):
`for i in range(len(model)): j = i; if model[i][0] > text:
model.insert(j, tup); return` followed by `model.insert(j+1, tup)`
after the loop. -/
def insertAlphaGo (model : List String) (text : String) (i j : Nat) : List String :=
  if h : i < model.length then
    if text < model.get ⟨i, h⟩ then listInsertAt model i text
    else insertAlphaGo model text (i + 1) i
  else listInsertAt model (j + 1) text
termination_by model.length - i

/-- `ComboBox.insert_alpha` (Widgets.py:297-306): runs the scan loop
starting from `i = 0`, `j = 0`. -/
def insert_alpha (model : List String) (text : String) : List String :=
  insertAlphaGo model text 0 0

/-- Insertion before the first strictly greater element (the behaviour
the scan loop implements; used to reason about `insert_alpha`). -/
def insertBefore (t : String) : List String → List String
  | [] => [t]
  | b :: l => if t < b then t :: b :: l else b :: insertBefore t l

/- ===================== TextArea history (C5, C10) ===================== -/

/-- The bookkeeping state of a `TextArea` (Widgets.py:128-139): the text
buffer contents and the configured history line limit (`self.histlimit`,
initialized to 0). -/
structure TAState where
  hist : List Char
  histlimit : Nat
deriving DecidableEq

/-- `gtk.TextBuffer.get_line_count`: one more than the number of newline
characters in the buffer (an empty buffer has one line). -/
def lineCount (cs : List Char) : Nat := cs.count '\n' + 1

/-- Deletion of the buffer's first line including its newline, i.e. the
segment from `get_iter_at_line(0)` to `get_iter_at_line(1)`; when the
buffer has no newline the iterator clamps to the end and the whole
buffer is deleted. -/
def dropFirstLine : List Char → List Char
  | [] => []
  | c :: cs => if c = '\n' then cs else dropFirstLine cs

/-- Deletion of the buffer's first `k` lines: the segment from
`get_iter_at_line(0)` to `get_iter_at_line(k)` (Widgets.py:170-172). -/
def dropLines : Nat → List Char → List Char
  | 0, cs => cs
  | k + 1, cs => dropLines k (dropFirstLine cs)

/-- `TextArea._history_housekeeping` (Widgets.py:164-172): when the line
count exceeds the limit, delete the leading `numlines - histlimit`
lines. -/
def housekeeping (buf : List Char) (limit : Nat) : List Char :=
  if limit < lineCount buf then dropLines (lineCount buf - limit) buf else buf

/-- `TextArea.append_text` (Widgets.py:141-158): insert the text at the
buffer's end; when `self.histlimit > 0` run the housekeeping pass (the
remaining statements only autoscroll the view). -/
def appendText (st : TAState) (text : List Char) : TAState :=
  let h := st.hist ++ text
  if 0 < st.histlimit then ⟨housekeeping h st.histlimit, st.histlimit⟩
  else ⟨h, st.histlimit⟩

/-- `TextArea.set_limit` (Widgets.py:184-186): store the new limit, then
immediately run the housekeeping pass. -/
def setLimitTA (st : TAState) (numlines : Nat) : TAState :=
  ⟨housekeeping st.hist numlines, numlines⟩

/- ===================== TreeView model (C3, C8) ===================== -/

/-- A node of the nested mapping handed to `TreeView.set_tree`: either a
string field value, a boolean (the `True` stored under the
`'__terminal__'` sentinel key), or a nested mapping, embedded as an
association list in insertion order. -/
inductive TNode where
  | field (s : String)
  | flag (b : Bool)
  | branch (entries : List (String × TNode))

/-- The single object column stored in a `gtk.TreeStore` row
(Widgets.py:657 and 660): either the branch key string or the list of
column values of a terminal row. -/
inductive CellVal where
  | key (s : String)
  | row (l : List TNode)

/-- One `gtk.TreeStore` node: its column-0 value and its parent node
(`None` for a top-level node), identified by index in creation order. -/
structure StoreNode where
  value : CellVal
  parent : Option Nat

/-- A `gtk.TreeStore`: the created nodes in creation order; a node's id
is its index. -/
abbrev TreeStore := List StoreNode

/-- `model.append(parent, [v])`: creates a node and returns the store
together with the new node's id. -/
def appendNode (m : TreeStore) (parent : Option Nat) (v : CellVal) : TreeStore × Nat :=
  (m ++ [⟨v, parent⟩], m.length)

/-- Python `'__terminal__' in node` for a mapping node. -/
def hasKey (entries : List (String × TNode)) (k : String) : Bool :=
  entries.any (fun p => p.1 == k)

/-- Python `node[hdr]`: first binding of the key, `KeyError` when
absent. -/
def dictGet (entries : List (String × TNode)) (k : String) : Except WErr TNode :=
  match entries.find? (fun p => p.1 == k) with
  | some p => .ok p.2
  | none => .error .keyError

/-- The list comprehension `[ node[hdr] for hdr in self.columns ]`
(Widgets.py:656). -/
def rowFields (entries : List (String × TNode)) : List String → Except WErr (List TNode)
  | [] => .ok []
  | c :: cs =>
    match dictGet entries c with
    | .error e => .error e
    | .ok v =>
      match rowFields entries cs with
      | .error e => .error e
      | .ok vs => .ok (v :: vs)

mutual
/-- `TreeView._set_subtree` (Widgets.py:652-663): a node containing the
`'__terminal__'` key is rendered as one row (the declared columns'
values) appended under `parent_item`; otherwise the source executes
`item = model.append(None, [ key ])` — note the literal `None` parent —
and recurses into every entry with `item` as the new parent.  A
non-mapping node is embedded as the `TypeError` Python's `in` test
raises on it. -/
def setSubtree (cols : List String) (level : Nat) (parentItem : Option Nat)
    (key : String) : TNode → TreeStore → Except WErr TreeStore
  | .field _, _ => .error .typeError
  | .flag _, _ => .error .typeError
  | .branch entries, model =>
    if hasKey entries "__terminal__" then
      match rowFields entries cols with
      | .error e => .error e
      | .ok l => .ok (appendNode model parentItem (.row l)).1
    else
      let p := appendNode model none (.key key)
      setSubtreeEntries cols level p.2 entries p.1

/-- The loop `for key in node: self._set_subtree(level+1, model, item,
key, node[key])` (Widgets.py:662-663), iterating the mapping in
insertion order. -/
def setSubtreeEntries (cols : List String) (level : Nat) (item : Nat) :
    List (String × TNode) → TreeStore → Except WErr TreeStore
  | [], m => .ok m
  | (k, n) :: rest, m =>
    match setSubtree cols (level + 1) (some item) k n m with
    | .error e => .error e
    | .ok m2 => setSubtreeEntries cols level item rest m2
end

/-- The loop of `TreeView.set_tree` (Widgets.py:641-642): build a fresh
store by running `_set_subtree(0, model, None, key, tree_dict[key])` for
every top-level key in order. -/
def setTreeGo (cols : List String) :
    List (String × TNode) → TreeStore → Except WErr TreeStore
  | [], m => .ok m
  | (k, n) :: rest, m =>
    match setSubtree cols 0 none k n m with
    | .error e => .error e
    | .ok m2 => setTreeGo cols rest m2

/-- `TreeView.set_tree` (Widgets.py:637-646): builds a fresh
`gtk.TreeStore` from the nested mapping (the remaining statements only
swap the native model into the view). -/
def setTree (cols : List String) (tree : List (String × TNode)) : Except WErr TreeStore :=
  setTreeGo cols tree []

/-- The value of `res[0]` in `TreeView._cb_redirect` (Widgets.py:673):
indexing the stored cell value; for a terminal row this is its first
column value, for a branch key string it is the string's first
character. -/
inductive ItemVal where
  | node (t : TNode)
  | chr (c : Char)

/-- `res[0]` on a stored cell value; `none` embeds the `IndexError` an
empty value would raise. -/
def res0 : CellVal → Option ItemVal
  | .row l => (l.get? 0).map ItemVal.node
  | .key s => (s.data.get? 0).map ItemVal.chr

/-- `TreeView._cb_redirect` (Widgets.py:665-675): with the cursor on the
store node `path`, look up its parent; when there is none, return
without firing; otherwise fire `'selected'` with the pair
`(parent value, res[0])`.  `some payload` embeds a fired `'selected'`
callback, `none` embeds no event. -/
def cbRedirect (model : TreeStore) (path : Nat) : Option (CellVal × ItemVal) :=
  match model.get? path with
  | none => none
  | some nd =>
    match nd.parent with
    | none => none
    | some pidx =>
      match model.get? pidx with
      | none => none
      | some pnd =>
        match res0 nd.value with
        | none => none
        | some item => some (pnd.value, item)

/-- The headers of claim C8's scenario: `set_headers(["Name","Value"])`
(Widgets.py:603-604 stores them in `self.columns`). -/
def c8cols : List String := ["Name", "Value"]

/-- The tree of claim C8's scenario:
`{"g1": {"x": {"__terminal__": True, "Name": "x", "Value": "1"}}}`. -/
def c8tree : List (String × TNode) :=
  [("g1", .branch [("x", .branch
      [("__terminal__", .flag true), ("Name", .field "x"), ("Value", .field "1")])])]

/-- The store `set_tree` builds for claim C8's scenario: the branch node
for `"g1"` (id 0, no parent) and the terminal row for `"x"` (id 1,
parent 0). -/
def c8store : TreeStore :=
  [⟨.key "g1", none⟩, ⟨.row [.field "x", .field "1"], some 0⟩]

/-- Headers for claim C3's failing input. -/
def c3cols : List String := ["Name"]

/-- A three-level nested mapping for claim C3:
`{"a": {"b": {"c": {"__terminal__": True, "Name": "c"}}}}`. -/
def c3tree : List (String × TNode) :=
  [("a", .branch [("b", .branch [("c", .branch
      [("__terminal__", .flag true), ("Name", .field "c")])])])]

/-- The store the source builds for claim C3's input: the nested branch
`"b"` is created with parent `None` (top level), not beneath `"a"`. -/
def c3store : TreeStore :=
  [⟨.key "a", none⟩, ⟨.key "b", none⟩, ⟨.row [.field "c"], some 1⟩]

/- ===================== Application registry (C9) ===================== -/

/-- The window-registry state of `Application` (Widgets.py:1190-1196):
the id counter `self.wincnt` (initialized to 0) and `self.window_dict`,
embedded as an association list in insertion order. -/
structure AppState where
  wincnt : Nat
  windowDict : List (String × Nat)
deriving DecidableEq

/-- Python `self.window_dict[wid] = window`: replace the binding when
the key is present, else append it. -/
def dictSet (d : List (String × Nat)) (k : String) (v : Nat) : List (String × Nat) :=
  if d.any (fun p => p.1 == k) then
    d.map (fun p => if p.1 == k then (k, v) else p)
  else d ++ [(k, v)]

/-- A fresh `Application` registry (Widgets.py:1190-1196). -/
def appInit : AppState := ⟨0, []⟩

/-- `Application.add_window` (Widgets.py:1219-1227): with no explicit
id, assign `'win%d' % self.wincnt` and increment the counter; store the
window under the id; returns the new state and the id stamped onto the
window (`window.wid`). -/
def addWindow (st : AppState) (win : Nat) (wid : Option String) : AppState × String :=
  match wid with
  | none =>
    let w := "win" ++ toString st.wincnt
    (⟨st.wincnt + 1, dictSet st.windowDict w win⟩, w)
  | some w => (⟨st.wincnt, dictSet st.windowDict w win⟩, w)

/-- `Application.make_window` (Widgets.py:1238-1241): constructs a new
`TopLevel` window (here: its id) and registers it via `add_window` with
no explicit id. -/
def makeWindow (st : AppState) (win : Nat) : AppState × String :=
  addWindow st win none

/- ===================== Helper lemmas ===================== -/

/-- Removing, in order, every element of a snapshot of a list from that
list empties it. -/
theorem removeLoop_self : ∀ l : List Nat, removeLoop l l = .ok [] := by
  intro l
  induction l with
  | nil => rfl
  | cons a l ih =>
    simp only [removeLoop, removeStep, List.mem_cons_self, if_pos,
      List.erase_cons_head]
    exact ih

/-- Each single container operation agrees with its spec-side
simulation. -/
theorem contStep_eq_specStep (l : List Nat) (op : COp) :
    contStep l op = specStep l op := by
  cases op with
  | add w => rfl
  | rem w => rfl
  | remAll => exact removeLoop_self l

theorem listInsertAt_of_le (l : List String) (pos : Nat) (x : String)
    (h : l.length ≤ pos) : listInsertAt l pos x = l ++ [x] := by
  unfold listInsertAt
  rw [List.take_of_length_le h, List.drop_of_length_le h]

/-- The scan loop of `insert_alpha`, entered at index `i = l0.length`
with every earlier element not greater than the text, inserts the text
before the first strictly greater element of the remainder. -/
theorem insertAlphaGo_spec (text : String) :
    ∀ (rest l0 : List String) (j : Nat),
      (∀ b ∈ l0, ¬ text < b) → l0.length ≤ j + 1 →
      insertAlphaGo (l0 ++ rest) text l0.length j = l0 ++ insertBefore text rest := by
  intro rest
  induction rest with
  | nil =>
    intro l0 j hmem hj
    rw [insertAlphaGo]
    have hlen : ¬ l0.length < (l0 ++ []).length := by simp
    rw [dif_neg hlen, List.append_nil,
      listInsertAt_of_le _ _ _ (Nat.le_trans hj (Nat.le_refl _))]
    rfl
  | cons b rest ih =>
    intro l0 j hmem hj
    rw [insertAlphaGo]
    have hlen : l0.length < (l0 ++ b :: rest).length := by simp
    rw [dif_pos hlen]
    have hget : (l0 ++ b :: rest).get ⟨l0.length, hlen⟩ = b := by
      simp [List.get_eq_getElem, List.getElem_append_right]
    rw [hget]
    by_cases hb : text < b
    · rw [if_pos hb]
      unfold listInsertAt
      rw [List.take_left, List.drop_left]
      simp [insertBefore, hb]
    · rw [if_neg hb]
      have hmem2 : ∀ x ∈ l0 ++ [b], ¬ text < x := by
        intro x hx
        rcases List.mem_append.mp hx with h | h
        · exact hmem x h
        · simp only [List.mem_singleton] at h
          subst h; exact hb
      have h2 := ih (l0 ++ [b]) l0.length hmem2 (by simp)
      simp only [List.append_assoc, List.singleton_append, List.length_append,
        List.length_singleton] at h2
      rw [h2]
      simp [insertBefore, hb]

/-- `insert_alpha` inserts the new text before the first strictly
greater entry (after all equal entries, at the end when no entry is
greater). -/
theorem insert_alpha_eq_insertBefore (l : List String) (text : String) :
    insert_alpha l text = insertBefore text l := by
  have h := insertAlphaGo_spec text l [] 0 (by simp) (by simp)
  simpa [insert_alpha] using h

theorem mem_insertBefore (t x : String) :
    ∀ l : List String, x ∈ insertBefore t l → x = t ∨ x ∈ l := by
  intro l
  induction l with
  | nil => intro h; simpa [insertBefore] using h
  | cons b l ih =>
    intro h
    rw [insertBefore] at h
    by_cases hb : t < b
    · rw [if_pos hb] at h
      simp only [List.mem_cons] at h ⊢
      tauto
    · rw [if_neg hb] at h
      rcases List.mem_cons.mp h with h | h
      · subst h; simp
      · rcases ih h with h | h
        · exact Or.inl h
        · exact Or.inr (List.mem_cons_of_mem b h)

/-- Insertion before the first strictly greater element preserves
ascending lexicographic order. -/
theorem sorted_insertBefore (t : String) :
    ∀ l : List String, l.Sorted (· ≤ ·) → (insertBefore t l).Sorted (· ≤ ·) := by
  intro l
  induction l with
  | nil => intro _; simp [insertBefore]
  | cons b l ih =>
    intro h
    rw [List.sorted_cons] at h
    obtain ⟨hb, hl⟩ := h
    rw [insertBefore]
    by_cases htb : t < b
    · rw [if_pos htb, List.sorted_cons]
      refine ⟨?_, List.sorted_cons.mpr ⟨hb, hl⟩⟩
      intro x hx
      rcases List.mem_cons.mp hx with h | h
      · subst h; exact le_of_lt htb
      · exact le_trans (le_of_lt htb) (hb x h)
    · rw [if_neg htb, List.sorted_cons]
      refine ⟨?_, ih hl⟩
      intro x hx
      rcases mem_insertBefore t x l hx with h | h
      · subst h; exact le_of_not_lt htb
      · exact hb x h

theorem sorted_foldl_insert_alpha :
    ∀ (ts : List String) (l : List String), l.Sorted (· ≤ ·) →
      (ts.foldl insert_alpha l).Sorted (· ≤ ·) := by
  intro ts
  induction ts with
  | nil => intro l h; exact h
  | cons t ts ih =>
    intro l h
    rw [List.foldl_cons]
    refine ih _ ?_
    rw [insert_alpha_eq_insertBefore]
    exact sorted_insertBefore t l h

theorem lineCount_pos (cs : List Char) : 1 ≤ lineCount cs := by
  unfold lineCount; omega

theorem count_dropFirstLine (cs : List Char) (h : 1 ≤ cs.count '\n') :
    (dropFirstLine cs).count '\n' = cs.count '\n' - 1 := by
  induction cs with
  | nil => simp at h
  | cons c cs ih =>
    rw [dropFirstLine]
    by_cases hc : c = '\n'
    · rw [if_pos hc]
      subst hc
      simp [List.count_cons]
    · rw [if_neg hc]
      have h2 : 1 ≤ cs.count '\n' := by
        rcases Nat.eq_zero_or_pos (cs.count '\n') with h0 | h0
        · exfalso
          rw [List.count_cons] at h
          simp [h0, hc] at h
        · exact h0
      rw [ih h2, List.count_cons]
      simp [hc]

theorem dropFirstLine_suffix (cs : List Char) : (dropFirstLine cs).IsSuffix cs := by
  induction cs with
  | nil => exact List.suffix_rfl
  | cons c cs ih =>
    rw [dropFirstLine]
    by_cases hc : c = '\n'
    · rw [if_pos hc]; exact List.suffix_cons c cs
    · rw [if_neg hc]; exact ih.trans (List.suffix_cons c cs)

theorem dropFirstLine_eq_nil (cs : List Char) (h : cs.count '\n' = 0) :
    dropFirstLine cs = [] := by
  induction cs with
  | nil => rfl
  | cons c cs ih =>
    have hc : c ≠ '\n' := by
      intro hc
      subst hc
      simp [List.count_cons] at h
    rw [dropFirstLine, if_neg hc]
    refine ih ?_
    rw [List.count_cons] at h
    simpa [hc] using h

theorem count_dropLines :
    ∀ (k : Nat) (cs : List Char), k ≤ cs.count '\n' →
      (dropLines k cs).count '\n' = cs.count '\n' - k := by
  intro k
  induction k with
  | zero => intro cs _; simp [dropLines]
  | succ k ih =>
    intro cs h
    rw [dropLines]
    have h1 : 1 ≤ cs.count '\n' := by omega
    have h2 : k ≤ (dropFirstLine cs).count '\n' := by
      rw [count_dropFirstLine cs h1]; omega
    rw [ih _ h2, count_dropFirstLine cs h1]
    omega

theorem dropLines_suffix :
    ∀ (k : Nat) (cs : List Char), (dropLines k cs).IsSuffix cs := by
  intro k
  induction k with
  | zero => intro cs; exact List.suffix_rfl
  | succ k ih =>
    intro cs
    rw [dropLines]
    exact (ih _).trans (dropFirstLine_suffix cs)

theorem dropLines_nil : ∀ k : Nat, dropLines k ([] : List Char) = [] := by
  intro k
  induction k with
  | zero => rfl
  | succ k ih => rw [dropLines]; exact ih

theorem dropLines_eq_nil :
    ∀ (k : Nat) (cs : List Char), cs.count '\n' < k → dropLines k cs = [] := by
  intro k
  induction k with
  | zero => intro cs h; omega
  | succ k ih =>
    intro cs h
    rw [dropLines]
    rcases Nat.eq_zero_or_pos (cs.count '\n') with h0 | h0
    · rw [dropFirstLine_eq_nil cs h0]
      exact dropLines_nil k
    · refine ih _ ?_
      rw [count_dropFirstLine cs h0]
      omega

/-- The housekeeping pass leaves exactly `L` lines whenever the buffer
exceeded the limit `L ≥ 1`. -/
theorem housekeeping_lineCount (buf : List Char) (L : Nat) (h1 : 1 ≤ L)
    (h2 : L < lineCount buf) : lineCount (housekeeping buf L) = L := by
  rw [housekeeping, if_pos h2]
  have hk : lineCount buf - L ≤ buf.count '\n' := by
    unfold lineCount at *; omega
  unfold lineCount at *
  rw [count_dropLines _ _ hk]
  omega

/- ===================== Claim theorems ===================== -/

/-- Claim C1: for every container and every finite sequence of
`add_widget` and `remove` operations (including `remove_all`), the
container's child list after the sequence equals the list obtained by
simulating the same sequence on an ordinary ordered collection: add
appends the child at the end, remove deletes the first matching child,
and `remove_all` leaves the collection empty. -/
theorem container_children_refines_ordered_collection :
    ∀ (init : List Nat) (ops : List COp), contRun init ops = specRun init ops := by
  intro init ops
  induction ops generalizing init with
  | nil => rfl
  | cons op ops ih =>
    simp only [contRun, specRun, contStep_eq_specStep]
    cases h : specStep init op with
    | error e => rfl
    | ok l2 => exact ih l2

/-- Claim C2 counterexample: after adding three children to a fresh
`Splitter`, the first nested pane's second slot holds the second nested
pane, not the third child widget, refuting the claim's placement of
child 3. -/
theorem splitter_third_child_not_in_first_pane_second_slot :
    (splitter3.panes.get? 0).map SPane.slot2 = some (some (.pane 1)) ∧
      (splitter3.panes.get? 0).map SPane.slot2 ≠ some (some (.widget 3)) := by
  exact ⟨rfl, by decide⟩

/-- Claim C2 (amended): adding exactly 3 children to a fresh `Splitter`
produces exactly 2 nested pane nodes; child 1 sits in the root pane's
first slot, child 2 in the first nested pane's first slot, and child 3
in the second nested pane's first slot, the second nested pane occupying
the first nested pane's second slot (and the first nested pane the root
pane's second slot). -/
theorem splitter_three_children_pane_chain :
    splitter3.panes.length = 2 ∧
      splitter3.root.slot1 = some (.widget 1) ∧
      splitter3.root.slot2 = some (.pane 0) ∧
      splitter3.panes.get? 0 = some ⟨some (.widget 2), some (.pane 1)⟩ ∧
      splitter3.panes.get? 1 = some ⟨some (.widget 3), none⟩ :=
  ⟨rfl, rfl, rfl, rfl, rfl⟩

/-- Claim C3 (code bug demonstration): on the three-level mapping
`{"a": {"b": {"c": {"__terminal__": True, "Name": "c"}}}}`,
`set_tree` appends the nested branch node `"b"` with parent `None`
(store id 1, top level) instead of beneath the enclosing branch `"a"`
(store id 0), because `_set_subtree` passes `None` rather than
`parent_item` at Widgets.py:660; the claim (and spec) requires the
nested branch to be attached beneath its enclosing branch. -/
theorem set_tree_nested_branch_attached_at_top_level :
    setTree c3cols c3tree = .ok c3store ∧
      c3store.get? 1 = some ⟨.key "b", none⟩ :=
  ⟨rfl, rfl⟩

/-- Claim C4: starting from an empty entry model, inserting any finite
sequence of strings via `insert_alpha` leaves the model lexicographically
ascending (duplicates permitted). -/
theorem insert_alpha_foldl_sorted :
    ∀ texts : List String, (texts.foldl insert_alpha []).Sorted (· ≤ ·) :=
  fun texts => sorted_foldl_insert_alpha texts [] (by simp)

/-- Claim C5: for a `TextArea` with line limit `L ≥ 1`, an `append_text`
call that makes the buffer exceed `L` lines leaves exactly `L` lines,
the oldest (leading) lines dropped first (the resulting buffer is a
suffix of the appended buffer); with `L = 0` appends never trim. -/
theorem textarea_append_text_line_limit :
    ∀ (buf text : List Char) (L : Nat),
      (1 ≤ L → L < lineCount (buf ++ text) →
        lineCount ((appendText ⟨buf, L⟩ text).hist) = L ∧
          ((appendText ⟨buf, L⟩ text).hist).IsSuffix (buf ++ text)) ∧
      (appendText ⟨buf, 0⟩ text).hist = buf ++ text := by
  intro buf text L
  constructor
  · intro h1 h2
    have hL : 0 < L := h1
    have happ : (appendText ⟨buf, L⟩ text).hist = housekeeping (buf ++ text) L := by
      simp [appendText]
      rw [if_pos hL]
    rw [happ]
    refine ⟨housekeeping_lineCount _ _ h1 h2, ?_⟩
    rw [housekeeping, if_pos h2]
    exact dropLines_suffix _ _
  · simp [appendText]

/-- Witness for claim C5 at a concrete input: buffer `"a\nb\n"`,
appended text `"c\nd"` (4 lines), limit 2. -/
theorem textarea_append_text_line_limit_witness :
    ((1 : Nat) ≤ 2 ∧ 2 < lineCount (['a', '\n', 'b', '\n'] ++ ['c', '\n', 'd'])) ∧
      (lineCount ((appendText ⟨['a', '\n', 'b', '\n'], 2⟩ ['c', '\n', 'd']).hist) = 2 ∧
        ((appendText ⟨['a', '\n', 'b', '\n'], 2⟩ ['c', '\n', 'd']).hist).IsSuffix
          (['a', '\n', 'b', '\n'] ++ ['c', '\n', 'd'])) ∧
      (appendText ⟨['a', '\n', 'b', '\n'], 0⟩ ['c', '\n', 'd']).hist =
        ['a', '\n', 'b', '\n'] ++ ['c', '\n', 'd'] :=
  ⟨⟨by decide, by decide⟩,
    (textarea_append_text_line_limit ['a', '\n', 'b', '\n'] ['c', '\n', 'd'] 2).1
      (by decide) (by decide),
    (textarea_append_text_line_limit ['a', '\n', 'b', '\n'] ['c', '\n', 'd'] 0).2⟩

/-- Claim C6: on every container (all container types share
`ContainerBase.remove` unchanged), removing a widget that is not a child
fails with the not-a-child error and leaves the child list unchanged. -/
theorem container_remove_not_a_child :
    ∀ (l : List Nat) (w : Nat), w ∉ l →
      removeStep l w = .error .notAChild ∧ removeState l w = l := by
  intro l w h
  have h1 : removeStep l w = .error .notAChild := by
    simp [removeStep, h]
  exact ⟨h1, by simp [removeState, h1]⟩

/-- Witness for claim C6: widget 5 is not a child of the container
holding children `[1, 2]`. -/
theorem container_remove_not_a_child_witness :
    (5 : Nat) ∉ [1, 2] ∧
      (removeStep [1, 2] 5 = .error .notAChild ∧ removeState [1, 2] 5 = [1, 2]) :=
  ⟨by decide, container_remove_not_a_child [1, 2] 5 (by decide)⟩

/-- Claim C7 counterexample: constructing a Box, Slider, ScrollBar,
Toolbar, or Splitter with the unsupported orientation tag `"diagonal"`
raises no error at all: each constructor silently produces the vertical
variant, refuting "fails fast with a ValueError-class error ... and
never silently defaults". -/
theorem orientation_silent_default_counterexample :
    boxOrient "diagonal" = .vertical ∧ sliderOrient "diagonal" = .vertical ∧
      scrollBarOrient "diagonal" = .vertical ∧ toolbarOrient "diagonal" = .vertical ∧
      splitterOrient "diagonal" = .vertical :=
  ⟨rfl, rfl, rfl, rfl, rfl⟩

/-- Claim C7 (amended): constructing a Box, Slider, ScrollBar, Toolbar,
or Splitter with any orientation tag other than `'horizontal'`
(including every unsupported tag) silently produces the vertical
variant; no error is raised. -/
theorem orientation_defaults_to_vertical :
    ∀ s : String, s ≠ "horizontal" →
      boxOrient s = .vertical ∧ sliderOrient s = .vertical ∧
        scrollBarOrient s = .vertical ∧ toolbarOrient s = .vertical ∧
        splitterOrient s = .vertical := by
  intro s h
  simp [boxOrient, sliderOrient, scrollBarOrient, toolbarOrient, splitterOrient, h]

/-- Witness for the amended claim C7 at the concrete tag `"diagonal"`. -/
theorem orientation_defaults_to_vertical_witness :
    ("diagonal" : String) ≠ "horizontal" ∧
      (boxOrient "diagonal" = .vertical ∧ sliderOrient "diagonal" = .vertical ∧
        scrollBarOrient "diagonal" = .vertical ∧ toolbarOrient "diagonal" = .vertical ∧
        splitterOrient "diagonal" = .vertical) :=
  ⟨by decide, orientation_defaults_to_vertical "diagonal" (by decide)⟩

/-- Claim C8: with headers `["Name", "Value"]` and the tree
`{"g1": {"x": {"__terminal__": True, "Name": "x", "Value": "1"}}}`,
`set_tree` builds the branch `"g1"` (id 0) with the terminal row for
`"x"` beneath it (id 1); selecting the row for `"x"` fires `selected`
with the payload `("g1", "x")` and selecting the top-level node `"g1"`,
which has no parent, fires no event. -/
theorem treeview_selected_event_payload :
    setTree c8cols c8tree = .ok c8store ∧
      cbRedirect c8store 1 = some (.key "g1", .node (.field "x")) ∧
      cbRedirect c8store 0 = none :=
  ⟨rfl, rfl, rfl⟩

/-- Claim C9: on a fresh Application registry, `make_window()` twice
with no explicit id assigns `'win0'` then `'win1'` from the increasing
counter, two distinct ids. -/
theorem make_window_ids_win0_win1 :
    ((makeWindow appInit 0).2 = "win0" ∧
        (makeWindow (makeWindow appInit 0).1 1).2 = "win1") ∧
      (makeWindow appInit 0).2 ≠ (makeWindow (makeWindow appInit 0).1 1).2 :=
  ⟨⟨rfl, rfl⟩, by decide⟩

/-- Claim C10: `set_limit(n)` immediately runs the housekeeping pass on
the existing buffer: with `n = 0` every line of a non-empty buffer is
deleted (the pass removes `numlines - 0` leading lines, clamping to the
buffer's end), and with `n ≥ 1` a buffer exceeding `n` lines is trimmed
to exactly `n` lines at once, without waiting for a subsequent append. -/
theorem set_limit_immediate_trim :
    ∀ (buf : List Char) (L n : Nat),
      (buf ≠ [] → (setLimitTA ⟨buf, L⟩ 0).hist = []) ∧
      (1 ≤ n → n < lineCount buf →
        lineCount ((setLimitTA ⟨buf, L⟩ n).hist) = n) := by
  intro buf L n
  constructor
  · intro _
    show housekeeping buf 0 = []
    have hp : 0 < lineCount buf := lineCount_pos buf
    rw [housekeeping, if_pos hp]
    apply dropLines_eq_nil
    unfold lineCount
    omega
  · intro h1 h2
    exact housekeeping_lineCount buf n h1 h2

/-- Witness for claim C10: buffer `"a\nb"` (2 lines, non-empty) with
old limit 5; `set_limit(0)` empties it and `set_limit(1)` trims it to
one line. -/
theorem set_limit_immediate_trim_witness :
    (['a', '\n', 'b'] ≠ ([] : List Char)) ∧
      (setLimitTA ⟨['a', '\n', 'b'], 5⟩ 0).hist = [] ∧
      ((1 : Nat) ≤ 1 ∧ 1 < lineCount ['a', '\n', 'b']) ∧
      lineCount ((setLimitTA ⟨['a', '\n', 'b'], 5⟩ 1).hist) = 1 :=
  ⟨by decide, (set_limit_immediate_trim ['a', '\n', 'b'] 5 0).1 (by decide),
    ⟨by decide, by decide⟩,
    (set_limit_immediate_trim ['a', '\n', 'b'] 5 1).2 (by decide) (by decide)⟩
